import Mathlib

/-!
Shallow embedding of the release-reconciliation logic of
src/autowheel/autowheel.py (function process, lines 19-152), together with
theorems checking the specification claims against it.

Version strings are handled by distutils LooseVersion in the source; the
configurations and releases in scope use purely numeric dotted versions, so
versions are embedded as lists of natural numbers obtained by splitting on
dots, compared by Python list comparison (elementwise, first difference
decides, a strict prefix is smaller).
-/

namespace Autowheel

/-- Python list/string comparison, strict less-than: walk both lists, the
first pair of unequal elements decides via the element order; a strict
prefix is smaller. -/
def lexLtBy [DecidableEq α] (lt : α → α → Bool) : List α → List α → Bool
  | [], [] => false
  | [], _ :: _ => true
  | _ :: _, [] => false
  | a :: as, b :: bs => if a = b then lexLtBy lt as bs else lt a b

/-- Accumulate the decimal digits of one dotted-version component. -/
def natOfDigits (cs : List Char) : Nat :=
  cs.foldl (fun acc c => acc * 10 + (c.toNat - 48)) 0

/-- Split a character list on dots (the component splitter LooseVersion
applies to a purely numeric dotted version string). -/
def splitOnDot : List Char → List (List Char)
  | [] => [[]]
  | c :: cs =>
    let r := splitOnDot cs
    if c = '.' then [] :: r
    else
      match r with
      | [] => [[c]]
      | g :: gs => (c :: g) :: gs

/-- LooseVersion of a numeric dotted version string: the list of numeric
components, so parseLoose applied to a string such as a two-component
version yields its component numbers in order (autowheel.py line 33). -/
def parseLoose (s : String) : List Nat :=
  (splitOnDot s.data).map natOfDigits

/-- Strict comparison of parsed versions: Python comparison of lists of
ints, as LooseVersion performs on numeric versions. -/
def versionLtB (v w : List Nat) : Bool :=
  lexLtBy (fun a b => decide (a < b)) v w

/-- Non-strict comparison of parsed versions (Python x <= y on lists of
ints is the negation of y < x for this total order). -/
def versionLeB (v w : List Nat) : Bool :=
  !(versionLtB w v)

/-- Python min over a nonempty list, seeded with the first element: keeps
the current candidate unless a strictly smaller element appears. -/
def pyMinBy (lt : α → α → Bool) : α → List α → α
  | cur, [] => cur
  | cur, x :: xs => pyMinBy lt (if lt x cur then x else cur) xs

/-- Python max over a nonempty list, seeded with the first element: keeps
the current candidate unless a strictly larger element appears. -/
def pyMaxBy (lt : α → α → Bool) : α → List α → α
  | cur, [] => cur
  | cur, x :: xs => pyMaxBy lt (if lt cur x then x else cur) xs

/-- The python_versions configuration: an ordered association list from
version-string keys to lists of required runtime tags (Python dicts keep
insertion order and have distinct keys). -/
abbrev VersionConfig := List (String × List String)

/-- min(package_versions) from autowheel.py line 34, parsed; the empty
configuration (on which the source min would raise) is given the empty
component list, and theorems that need it carry a nonemptiness
hypothesis. -/
def min_package_version (cfg : VersionConfig) : List Nat :=
  match cfg.map (fun p => parseLoose p.1) with
  | [] => []
  | v :: vs => pyMinBy versionLtB v vs

/-- Comparison of configuration entries by their parsed version keys, as
the source compares the LooseVersion objects built from the keys. -/
def pairLt (a b : String × List String) : Bool :=
  versionLtB (parseLoose a.1) (parseLoose b.1)

/-- The entries of the configuration whose parsed key is less than or
equal to the parsed release version (the filtered comprehension of
autowheel.py line 56). -/
def eligible (cfg : VersionConfig) (rvp : List Nat) : VersionConfig :=
  cfg.filter (fun p => versionLeB (parseLoose p.1) rvp)

/-- max over the eligible entries (autowheel.py line 56); the lookup
python_versions[str(matching_version)] of line 59 is the second component
of the winning entry, since str of a LooseVersion is its original key
string.  none when no entry is eligible. -/
def maxLe (cfg : VersionConfig) (rvp : List Nat) : Option (String × List String) :=
  match eligible cfg rvp with
  | [] => none
  | p :: ps => some (pyMaxBy pairLt p ps)

/-- required_pythons of autowheel.py line 59 ([] in the unreachable case
of no eligible entry). -/
def requiredList (cfg : VersionConfig) (rv : String) : List String :=
  match maxLe cfg (parseLoose rv) with
  | some p => p.2
  | none => []

/-- Result of the version-range resolver for one release. -/
inductive ResolveResult
  | outOfRange
  | targets (ts : List String)
deriving DecidableEq

/-- The version-range resolver: the below-minimum check of autowheel.py
lines 50-52 followed by the floor lookup of lines 56-59. -/
def requiredTargets (cfg : VersionConfig) (rv : String) : ResolveResult :=
  if versionLtB (parseLoose rv) (min_package_version cfg) then
    ResolveResult.outOfRange
  else
    match maxLe cfg (parseLoose rv) with
    | some p => ResolveResult.targets p.2
    | none => ResolveResult.outOfRange

/-- One file record of a release, with the fields the source reads
(packagetype, filename, url). -/
structure FileInfo where
  packagetype : String
  filename : String
  url : String
deriving DecidableEq

/-- Boolean prefix test on character lists. -/
def listStartsWith : List Char → List Char → Bool
  | [], _ => true
  | _ :: _, [] => false
  | a :: as, b :: bs => a = b && listStartsWith as bs

/-- Boolean contiguous-substring test on character lists. -/
def listInfixOf (needle : List Char) : List Char → Bool
  | [] => listStartsWith needle []
  | b :: bs => listStartsWith needle (b :: bs) || listInfixOf needle bs

/-- Python substring membership: needle in hay. -/
def strContains (needle hay : String) : Bool :=
  listInfixOf needle.data hay.data

/-- One step of the scan of a release's file list, autowheel.py lines
70-78: a bdist_wheel record whose filename contains the platform tag
contributes every recognized python tag contained in the filename; an
sdist record overwrites the recorded sdist (so the LAST sdist record
wins); anything else is ignored.  python_tags is the PYTHON_TAGS
vocabulary; the module autowheel/config.py defining it is not part of
the sources, so the vocabulary is passed as a parameter. -/
def scanStep (python_tags : List String) (platform_tag : String)
    (acc : List String × Option FileInfo) (fi : FileInfo) :
    List String × Option FileInfo :=
  if fi.packagetype = "bdist_wheel" then
    (if strContains platform_tag fi.filename then
       acc.1 ++ python_tags.filter (fun t => strContains t fi.filename)
     else acc.1, acc.2)
  else if fi.packagetype = "sdist" then (acc.1, some fi)
  else acc

/-- The scan proper: the fold of scanStep over the file list starting
from no collected wheels and no sdist record. -/
def scanFiles (python_tags : List String) (platform_tag : String)
    (files : List FileInfo) : List String × Option FileInfo :=
  files.foldl (scanStep python_tags platform_tag) ([], none)

/-- Strict Python string comparison (by code points). -/
def strLtB (a b : String) : Bool :=
  lexLtBy (fun c d : Char => decide (c < d)) a.data b.data

/-- Non-strict Python string comparison. -/
def strLeB (a b : String) : Bool :=
  !(strLtB b a)

instance decStrLeRel : DecidableRel (fun a b : String => strLeB a b = true) :=
  fun a b => instDecidableEqBool (strLeB a b) true

/-- missing of autowheel.py line 80: sorted(set(required) - set(wheels)),
embedded as the ascending insertion sort of the deduplicated list of
required tags not contained in the published list. -/
def missing (required_pythons wheels_pythons : List String) : List String :=
  List.insertionSort (fun a b => strLeB a b = true)
    ((required_pythons.filter (fun t => decide (t ∉ wheels_pythons))).dedup)

/-- Outcome of one invocation of the external builder (cibuildwheel,
line 145): it either returns normally or raises SystemExit with an
integer exit code. -/
inductive BuildOutcome
  | normal
  | exits (code : Int)
deriving DecidableEq

/-- The per-target build loop of autowheel.py lines 130-148, restricted to
its control flow: returns the list of targets for which the builder was
invoked, in order, and the exit code that aborted the loop, if any.  A
SystemExit with code 0 is swallowed and the loop continues; a SystemExit
with nonzero code is re-raised (lines 146-148). -/
def runBuildLoop (build : String → BuildOutcome) : List String → List String × Option Int
  | [] => ([], none)
  | t :: ts =>
    match build t with
    | BuildOutcome.normal =>
      let r := runBuildLoop build ts
      (t :: r.1, r.2)
    | BuildOutcome.exits c =>
      if c ≠ 0 then ([t], some c)
      else
        let r := runBuildLoop build ts
        (t :: r.1, r.2)

/-- Error that can end a release's processing block. -/
inductive StepError
  | noSdist
  | fetchFailed
  | extractFailed
  | indexError
  | unexpectedPaths
  | buildFailed (code : Int)
deriving DecidableEq

/-- Result of processing one release. -/
inductive ReleaseResult
  | skippedOutOfRange
  | skippedAllPresent
  | error (e : StepError)
  | built (invoked : List String)
deriving DecidableEq

/-- Environment of one release's try block: whether the network fetch and
the archive extraction succeed, the top-level paths left after extraction
once the archive file itself is removed from the listing (line 105), and
the behaviour of the external builder per target. -/
structure BlockEnv where
  fetchOk : Bool
  extractOk : Bool
  extractedPaths : List String
  build : String → BuildOutcome

/-- Options handed to process (autowheel.py lines 19-21), plus the
PYTHON_TAGS vocabulary (from the module autowheel/config.py, which is
not part of the sources, hence carried as data here). -/
structure Options where
  platform_tag : String
  before_build : Option String
  test_command : Option String
  test_requires : Option String
  pin_numpy : Bool
  output_dir : String
  ignore_existing : Bool
  python_tags : List String

/-- Body of the per-release try block, autowheel.py lines 89-148, with the
current working directory threaded explicitly.  The block first changes
into tmpdir (line 92); dereferencing the absent sdist record (line 94,
None subscription) is the noSdist error; then download, extraction, the
unique-top-level-directory check of lines 104-108 (an empty listing makes
paths[0] an index error, more than one entry raises ValueError), the
change into the extracted directory (line 109), and the build loop.
Returns the block's result and the working directory at the moment the
block ends. -/
def releaseBlockBody (blk : BlockEnv) (sdist : Option FileInfo)
    (missing_tags : List String) (tmpdir : String) : ReleaseResult × String :=
  match sdist with
  | none => (ReleaseResult.error StepError.noSdist, tmpdir)
  | some _ =>
    if !blk.fetchOk then (ReleaseResult.error StepError.fetchFailed, tmpdir)
    else if !blk.extractOk then (ReleaseResult.error StepError.extractFailed, tmpdir)
    else
      match blk.extractedPaths with
      | [] => (ReleaseResult.error StepError.indexError, tmpdir)
      | [p] =>
        let r := runBuildLoop blk.build missing_tags
        (match r.2 with
         | some c => (ReleaseResult.error (StepError.buildFailed c), tmpdir ++ "/" ++ p)
         | none => (ReleaseResult.built r.1, tmpdir ++ "/" ++ p))
      | _ :: _ :: _ => (ReleaseResult.error StepError.unexpectedPaths, tmpdir)

/-- The try block together with its finally clause (autowheel.py lines
150-152): whatever the body did and wherever it left the working
directory, the finally clause changes back to start_dir. -/
def releaseBlock (blk : BlockEnv) (sdist : Option FileInfo)
    (missing_tags : List String) (tmpdir start_dir : String) : ReleaseResult × String :=
  ((releaseBlockBody blk sdist missing_tags tmpdir).1, start_dir)

/-- Processing of one release, autowheel.py lines 46-152: the
below-minimum skip (lines 50-52), the floor lookup (lines 56-59), the
file scan (lines 64-78), the missing computation (line 80), the
all-wheels-present skip (lines 82-84, bypassed by ignore_existing), and
otherwise the try/finally block.  Returns the release's result and the
final working directory; start_dir is the directory recorded at line 41,
which is also the directory the loop iteration starts in. -/
def processRelease (opts : Options) (blk : BlockEnv) (cfg : VersionConfig)
    (rv : String) (files : List FileInfo) (tmpdir start_dir : String) :
    ReleaseResult × String :=
  if versionLtB (parseLoose rv) (min_package_version cfg) then
    (ReleaseResult.skippedOutOfRange, start_dir)
  else
    let required_pythons := requiredList cfg rv
    let scan := scanFiles opts.python_tags opts.platform_tag files
    let missing_tags := missing required_pythons scan.1
    if missing_tags.isEmpty && !opts.ignore_existing then
      (ReleaseResult.skippedAllPresent, start_dir)
    else
      releaseBlock blk scan.2 missing_tags tmpdir start_dir

/-- Environment-variable state of the process: the configuration channel
to the external builder. -/
abbrev Env := String → Option String

/-- os.environ[k] = v. -/
def setEnv (env : Env) (k v : String) : Env :=
  fun q => if q = k then some v else env q

/-- The platform family written to CIBW_PLATFORM, autowheel.py lines
115-120: substring match, mac first, then linux, else windows. -/
def cibwPlatform (platform_tag : String) : String :=
  if strContains "mac" platform_tag then "macos"
  else if strContains "linux" platform_tag then "linux"
  else "windows"

/-- Python truthiness of an optional string option: None and the empty
string are falsy. -/
def truthy : Option String → Bool
  | none => false
  | some s => !(decide (s = ""))

/-- The per-release environment setup of autowheel.py lines 115-128,
executed once before the target loop: CIBW_PLATFORM, CIBW_OUTPUT_DIR and
CIBW_BUILD_VERBOSITY are always assigned; CIBW_TEST_COMMAND and
CIBW_TEST_REQUIRES are assigned only when the corresponding option is
truthy. -/
def setupEnvBase (opts : Options) (env : Env) : Env :=
  let env1 := setEnv env "CIBW_PLATFORM" (cibwPlatform opts.platform_tag)
  let env2 := setEnv env1 "CIBW_OUTPUT_DIR" opts.output_dir
  let env3 :=
    match opts.test_command with
    | some s => if decide (s = "") then env2 else setEnv env2 "CIBW_TEST_COMMAND" s
    | none => env2
  let env4 :=
    match opts.test_requires with
    | some s => if decide (s = "") then env3 else setEnv env3 "CIBW_TEST_REQUIRES" s
    | none => env3
  setEnv env4 "CIBW_BUILD_VERBOSITY" "3"

/-- The per-target environment setup of autowheel.py lines 132-138:
CIBW_BUILD is always assigned; CIBW_BEFORE_BUILD is assigned from the
pinned-numpy table when pin_numpy is set, else from before_build when
that is truthy, else left untouched.  min_numpy models the MIN_NUMPY
table of the module autowheel/numpy.py, which is not part of the
sources, hence carried as a parameter. -/
def setupEnvTarget (opts : Options) (min_numpy : String → String → String)
    (python_tag : String) (env : Env) : Env :=
  let env1 := setEnv env "CIBW_BUILD" (python_tag ++ "-" ++ opts.platform_tag)
  if opts.pin_numpy then
    setEnv env1 "CIBW_BEFORE_BUILD"
      ("pip install numpy==" ++ min_numpy python_tag opts.platform_tag)
  else
    match opts.before_build with
    | some s => if decide (s = "") then env1 else setEnv env1 "CIBW_BEFORE_BUILD" s
    | none => env1

/-- The full environment handed to the builder for the first target of a
release: the per-release setup followed by the per-target setup. -/
def buildEnv (opts : Options) (min_numpy : String → String → String)
    (python_tag : String) (env : Env) : Env :=
  setupEnvTarget opts min_numpy python_tag (setupEnvBase opts env)

/- Concrete fixtures used by witnesses and counterexamples. -/

/-- A recognized-runtime-tag vocabulary. -/
def tags0 : List String := ["cp27", "cp35", "cp36"]

/-- The configuration of the specification scenario. -/
def cfg3 : VersionConfig :=
  [("0.1", ["cp27", "cp35"]), ("0.2", ["cp27", "cp35", "cp36"])]

/-- A one-entry configuration. -/
def cfg1 : VersionConfig := [("0.1", ["cp27"])]

/-- A block environment where everything succeeds and the builder returns
normally. -/
def blkOk : BlockEnv :=
  { fetchOk := true, extractOk := true, extractedPaths := ["pkg-0.1"],
    build := fun _ => BuildOutcome.normal }

/-- Options for a linux platform with no optional settings. -/
def opts0 : Options :=
  { platform_tag := "manylinux1_x86_64", before_build := none,
    test_command := none, test_requires := none, pin_numpy := false,
    output_dir := "/out", ignore_existing := false, python_tags := tags0 }

/-- The same options with the force-rebuild flag set. -/
def optsI : Options := { opts0 with ignore_existing := true }

/-- A published wheel record matching cp27 and the linux platform tag. -/
def wheelCp27 : FileInfo :=
  ⟨"bdist_wheel", "pkg-0.1-cp27-cp27m-manylinux1_x86_64.whl", "u1"⟩

/-- A source-distribution record. -/
def sdistA : FileInfo := ⟨"sdist", "pkg-0.3.tar.gz", "uA"⟩

/-- A second, different source-distribution record. -/
def sdistB : FileInfo := ⟨"sdist", "pkg-0.3-rebuild.tar.gz", "uB"⟩

/-- An environment with nothing set. -/
def env0 : Env := fun _ => none

/-- An environment polluted by a previous invocation that set a test
command. -/
def envLeak : Env :=
  setEnv env0 "CIBW_TEST_COMMAND" "pytest"

/-- A constant pinned-numpy table. -/
def mn0 : String → String → String := fun _ _ => "1.7.0"

/-- A builder that exits with code 0 on cp27 and code 3 on anything
else. -/
def buildW : String → BuildOutcome :=
  fun t => if t = "cp27" then BuildOutcome.exits 0 else BuildOutcome.exits 3

/- Order lemmas for the embedded Python comparisons. -/

/-- Python list comparison is irreflexive. -/
theorem lexLt_self [DecidableEq α] (lt : α → α → Bool) :
    ∀ l : List α, lexLtBy lt l l = false := by
  intro l
  induction l with
  | nil => rfl
  | cons a as ih => simp [lexLtBy, ih]

/-- Python list comparison is transitive when the element order is an
irreflexive transitive order. -/
theorem lexLt_trans [DecidableEq α] (lt : α → α → Bool)
    (hirr : ∀ a, lt a a = false)
    (htr : ∀ a b c, lt a b = true → lt b c = true → lt a c = true) :
    ∀ x y z : List α, lexLtBy lt x y = true → lexLtBy lt y z = true →
      lexLtBy lt x z = true := by
  intro x
  induction x with
  | nil =>
    intro y z hxy hyz
    cases y with
    | nil => simp [lexLtBy] at hxy
    | cons b bs =>
      cases z with
      | nil => simp [lexLtBy] at hyz
      | cons c cs => simp [lexLtBy]
  | cons a as ih =>
    intro y z hxy hyz
    cases y with
    | nil => simp [lexLtBy] at hxy
    | cons b bs =>
      cases z with
      | nil => simp [lexLtBy] at hyz
      | cons c cs =>
        by_cases hab : a = b
        · subst hab
          rw [lexLtBy, if_pos rfl] at hxy
          by_cases hac : a = c
          · subst hac
            rw [lexLtBy, if_pos rfl] at hyz ⊢
            exact ih bs cs hxy hyz
          · rw [lexLtBy, if_neg hac] at hyz ⊢
            exact hyz
        · rw [lexLtBy, if_neg hab] at hxy
          by_cases hbc : b = c
          · subst hbc
            rw [lexLtBy, if_neg hab]
            exact hxy
          · rw [lexLtBy, if_neg hbc] at hyz
            have hac : a ≠ c := by
              intro h
              subst h
              have h1 := htr a b a hxy hyz
              rw [hirr a] at h1
              simp at h1
            rw [lexLtBy, if_neg hac]
            exact htr a b c hxy hyz

/-- When the element order is total on distinct elements, two lists that
are each not below the other are equal. -/
theorem lexLt_connex [DecidableEq α] (lt : α → α → Bool)
    (htot : ∀ a b, a ≠ b → lt a b = true ∨ lt b a = true) :
    ∀ x y : List α, lexLtBy lt x y = false → lexLtBy lt y x = false → x = y := by
  intro x
  induction x with
  | nil =>
    intro y h1 _
    cases y with
    | nil => rfl
    | cons b bs => simp [lexLtBy] at h1
  | cons a as ih =>
    intro y h1 h2
    cases y with
    | nil => simp [lexLtBy] at h2
    | cons b bs =>
      by_cases hab : a = b
      · subst hab
        rw [lexLtBy, if_pos rfl] at h1 h2
        rw [ih bs h1 h2]
      · rcases htot a b hab with h | h
        · rw [lexLtBy, if_neg hab, h] at h1
          simp at h1
        · rw [lexLtBy, if_neg (Ne.symm hab), h] at h2
          simp at h2

/-- Parsed-version comparison is irreflexive. -/
theorem versionLt_irrefl (v : List Nat) : versionLtB v v = false :=
  lexLt_self _ v

/-- Parsed-version comparison is transitive. -/
theorem versionLt_trans {u v w : List Nat}
    (h1 : versionLtB u v = true) (h2 : versionLtB v w = true) :
    versionLtB u w = true :=
  lexLt_trans _ (fun a => by simp)
    (fun a b c hab hbc => by
      simp only [decide_eq_true_eq] at hab hbc ⊢
      omega) u v w h1 h2

/-- Two parsed versions that are each not below the other are equal. -/
theorem versionLt_connex {u v : List Nat}
    (h1 : versionLtB u v = false) (h2 : versionLtB v u = false) : u = v :=
  lexLt_connex _
    (fun a b hab => by
      rcases Nat.lt_or_ge a b with h | h
      · exact Or.inl (by simpa using h)
      · rcases Nat.lt_or_ge b a with h' | h'
        · exact Or.inr (by simpa using h')
        · exact absurd (Nat.le_antisymm h' h) hab) u v h1 h2

/-- String comparison is irreflexive. -/
theorem strLt_irrefl (a : String) : strLtB a a = false :=
  lexLt_self _ a.data

/-- String comparison is transitive. -/
theorem strLt_trans {a b c : String}
    (h1 : strLtB a b = true) (h2 : strLtB b c = true) : strLtB a c = true :=
  lexLt_trans _ (fun x => by simp)
    (fun x y z hxy hyz => by
      simp only [decide_eq_true_eq] at hxy hyz ⊢
      exact lt_trans hxy hyz) a.data b.data c.data h1 h2

/-- Two strings that are each not below the other are equal. -/
theorem strLt_connex {a b : String}
    (h1 : strLtB a b = false) (h2 : strLtB b a = false) : a = b := by
  have hdata : a.data = b.data :=
    lexLt_connex _
      (fun x y hxy => by
        rcases lt_or_gt_of_ne hxy with h | h
        · exact Or.inl (by simpa using h)
        · exact Or.inr (by simpa using h)) a.data b.data h1 h2
  exact String.ext hdata

/-- The Python max fold returns the seed or one of the traversed
elements. -/
theorem pyMaxBy_mem (lt : β → β → Bool) :
    ∀ (xs : List β) (cur), pyMaxBy lt cur xs = cur ∨ pyMaxBy lt cur xs ∈ xs := by
  intro xs
  induction xs with
  | nil => intro cur; exact Or.inl rfl
  | cons x rest ih =>
    intro cur
    rw [pyMaxBy]
    by_cases hc : lt cur x = true
    · rw [if_pos hc]
      rcases ih x with h | h
      · right
        rw [h]
        exact List.mem_cons_self x rest
      · exact Or.inr (List.mem_cons_of_mem x h)
    · rw [if_neg hc]
      rcases ih cur with h | h
      · exact Or.inl h
      · exact Or.inr (List.mem_cons_of_mem x h)

/-- The Python max fold yields an element that no seed or traversed
element strictly exceeds, for a strict order where order-equivalent
elements compare identically against everything. -/
theorem pyMaxBy_not_lt (lt : β → β → Bool)
    (hirr : ∀ a, lt a a = false)
    (htr : ∀ a b c, lt a b = true → lt b c = true → lt a c = true)
    (hsub : ∀ a b, lt a b = false → lt b a = false → ∀ c, lt c a = lt c b) :
    ∀ (xs : List β) (cur y), (y = cur ∨ y ∈ xs) →
      lt (pyMaxBy lt cur xs) y = false := by
  intro xs
  induction xs with
  | nil =>
    intro cur y hy
    rcases hy with rfl | h
    · exact hirr y
    · simp at h
  | cons x rest ih =>
    intro cur y hy
    rw [pyMaxBy]
    by_cases hc : lt cur x = true
    · rw [if_pos hc]
      rcases hy with hcur | hmem
      · -- y is the old seed cur, strictly below the new seed x
        have hRx : lt (pyMaxBy lt x rest) x = false := ih x x (Or.inl rfl)
        cases hRy : lt (pyMaxBy lt x rest) y with
        | false => rfl
        | true =>
          have h2 : lt y x = true := hcur ▸ hc
          have := htr _ y x hRy h2
          rw [hRx] at this
          simp at this
      · rcases List.mem_cons.mp hmem with heq | hmem'
        · exact heq ▸ ih x x (Or.inl rfl)
        · exact ih x y (Or.inr hmem')
    · rw [if_neg hc]
      rcases hy with hcur | hmem
      · exact ih cur y (Or.inl hcur)
      · rcases List.mem_cons.mp hmem with heq | hmem'
        · -- y is the head x, which does not exceed the kept seed cur
          have hRcur : lt (pyMaxBy lt cur rest) cur = false := ih cur cur (Or.inl rfl)
          have hc' : lt cur x = false := by
            cases h : lt cur x
            · rfl
            · exact absurd h hc
          by_cases hxc : lt x cur = true
          · cases hRy : lt (pyMaxBy lt cur rest) y with
            | false => rfl
            | true =>
              have h2 : lt y cur = true := heq ▸ hxc
              have := htr _ y cur hRy h2
              rw [hRcur] at this
              simp at this
          · have hxc' : lt x cur = false := by
              cases h : lt x cur
              · rfl
              · exact absurd h hxc
            rw [heq, hsub x cur hxc' hc' (pyMaxBy lt cur rest)]
            exact hRcur
        · exact ih cur y (Or.inr hmem')

/-- The Python min fold returns the seed or one of the traversed
elements. -/
theorem pyMinBy_mem (lt : β → β → Bool) :
    ∀ (xs : List β) (cur), pyMinBy lt cur xs = cur ∨ pyMinBy lt cur xs ∈ xs := by
  intro xs
  induction xs with
  | nil => intro cur; exact Or.inl rfl
  | cons x rest ih =>
    intro cur
    rw [pyMinBy]
    by_cases hc : lt x cur = true
    · rw [if_pos hc]
      rcases ih x with h | h
      · right
        rw [h]
        exact List.mem_cons_self x rest
      · exact Or.inr (List.mem_cons_of_mem x h)
    · rw [if_neg hc]
      rcases ih cur with h | h
      · exact Or.inl h
      · exact Or.inr (List.mem_cons_of_mem x h)

/-- The minimum configured version is the parsed key of some
configuration entry. -/
theorem min_package_version_mem (cfg : VersionConfig) (hcfg : cfg ≠ []) :
    ∃ p, p ∈ cfg ∧ min_package_version cfg = parseLoose p.1 := by
  cases cfg with
  | nil => exact absurd rfl hcfg
  | cons c cs =>
    unfold min_package_version
    simp only [List.map_cons]
    rcases pyMinBy_mem versionLtB (cs.map (fun p => parseLoose p.1)) (parseLoose c.1)
      with h | h
    · exact ⟨c, List.mem_cons_self c cs, h⟩
    · rcases List.mem_map.mp h with ⟨q, hq, hqeq⟩
      exact ⟨q, List.mem_cons_of_mem c hq, hqeq.symm⟩

/-- The entry comparison used by the floor lookup is irreflexive. -/
theorem pairLt_irrefl (p : String × List String) : pairLt p p = false :=
  versionLt_irrefl _

/-- The entry comparison used by the floor lookup is transitive. -/
theorem pairLt_trans (a b c : String × List String)
    (h1 : pairLt a b = true) (h2 : pairLt b c = true) : pairLt a c = true :=
  versionLt_trans h1 h2

/-- Entries whose parsed keys are order-equivalent compare identically
against every entry. -/
theorem pairLt_subst (a b : String × List String)
    (h1 : pairLt a b = false) (h2 : pairLt b a = false) :
    ∀ c, pairLt c a = pairLt c b := by
  intro c
  unfold pairLt at h1 h2 ⊢
  rw [versionLt_connex h1 h2]

/-- Appending to a nonempty list keeps its last element on the right
part; in Option form, the last element of a cons is the last element of
the tail when that exists, else the head. -/
theorem getLast?_cons_or (a : α) : ∀ l : List α,
    (a :: l).getLast? = l.getLast?.or (some a) := by
  intro l
  induction l generalizing a with
  | nil => rfl
  | cons b t ih =>
    rw [List.getLast?_cons_cons, ih b]
    cases t.getLast? <;> rfl

/-- The sdist component of the scan fold: the last sdist record among
the traversed files, or the accumulator's record when none occurs. -/
theorem scanStep_foldl_snd (pt : List String) (plat : String) :
    ∀ (files : List FileInfo) (acc : List String × Option FileInfo),
      (files.foldl (scanStep pt plat) acc).2
        = ((files.filter (fun fi => decide (fi.packagetype = "sdist"))).getLast?).or acc.2 := by
  intro files
  induction files with
  | nil => intro acc; rfl
  | cons fi fs ih =>
    intro acc
    rw [List.foldl_cons, ih]
    by_cases h : fi.packagetype = "sdist"
    · have hb : ¬ fi.packagetype = "bdist_wheel" := by
        rw [h]
        decide
      have hstep : (scanStep pt plat acc fi).2 = some fi := by
        simp [scanStep, if_neg hb, if_pos h]
      rw [hstep, List.filter_cons, if_pos (by simpa using h), getLast?_cons_or]
      cases (fs.filter (fun x => decide (x.packagetype = "sdist"))).getLast? <;> rfl
    · have hstep : (scanStep pt plat acc fi).2 = acc.2 := by
        by_cases hb : fi.packagetype = "bdist_wheel" <;>
          simp [scanStep, hb, h]
      rw [hstep, List.filter_cons, if_neg (by simpa using h)]

/-- C3 counterexample: on the scenario configuration the resolver does
NOT return the first range's targets for release 0.15, because
LooseVersion compares componentwise and 15 exceeds 2, so 0.15 falls in
the range of the key 0.2. -/
theorem c3_counterexample :
    requiredTargets cfg3 "0.15" ≠ ResolveResult.targets ["cp27", "cp35"] := by
  decide

/-- C3 (amended): with configuration 0.1 to [cp27, cp35] and 0.2 to
[cp27, cp35, cp36], releases 0.15, 0.2 and 0.05 all resolve to
[cp27, cp35, cp36]: under full version-ordering semantics the parsed
versions [0,15] and [0,5] both exceed [0,2], so the greatest key at or
below each of the three releases is 0.2; none is out of range. -/
theorem c3_resolver_scenario :
    requiredTargets cfg3 "0.15" = ResolveResult.targets ["cp27", "cp35", "cp36"]
    ∧ requiredTargets cfg3 "0.2" = ResolveResult.targets ["cp27", "cp35", "cp36"]
    ∧ requiredTargets cfg3 "0.05" = ResolveResult.targets ["cp27", "cp35", "cp36"] := by
  decide

/-- C2: evaluation of the code at the failing input.  The configuration
requires cp27 for releases from 0.1 on; the release 0.1 already has a
published cp27 wheel for the platform; the force-rebuild flag
ignore_existing is set.  The release is then not skipped (the
computation runs and the block is entered), but since the per-target
loop iterates over the missing list, which is empty, the builder is
invoked for zero targets instead of rebuilding the required cp27. -/
theorem c2_force_rebuild_code_eval :
    requiredList cfg1 "0.1" = ["cp27"]
    ∧ optsI.ignore_existing = true
    ∧ (processRelease optsI blkOk cfg1 "0.1" [wheelCp27, sdistA] "/tmp/w" "/start").1
        = ReleaseResult.built [] := by
  decide

/-- C6: a release whose version is strictly below every configured key
(hence below the minimum) is skipped entirely: processing one such
release yields the out-of-range skip, which attempts no build and
raises no error, and the resolver reports out-of-range. -/
theorem c6_below_min_skipped (opts : Options) (blk : BlockEnv)
    (cfg : VersionConfig) (rv : String) (files : List FileInfo)
    (tmpdir start_dir : String) (hcfg : cfg ≠ [])
    (hbelow : ∀ p ∈ cfg, versionLtB (parseLoose rv) (parseLoose p.1) = true) :
    (processRelease opts blk cfg rv files tmpdir start_dir).1
        = ReleaseResult.skippedOutOfRange
    ∧ requiredTargets cfg rv = ResolveResult.outOfRange := by
  obtain ⟨p0, hp0, hpeq⟩ := min_package_version_mem cfg hcfg
  have hlt : versionLtB (parseLoose rv) (min_package_version cfg) = true := by
    rw [hpeq]
    exact hbelow p0 hp0
  constructor
  · simp [processRelease, hlt]
  · simp [requiredTargets, hlt]

/-- Witness for C6 at a concrete input: release 0.0.5 is below the
minimum key 0.1 of the scenario configuration and is skipped. -/
theorem c6_witness :
    (processRelease opts0 blkOk cfg3 "0.0.5" [] "/tmp/w" "/start").1
        = ReleaseResult.skippedOutOfRange
    ∧ requiredTargets cfg3 "0.0.5" = ResolveResult.outOfRange :=
  c6_below_min_skipped opts0 blkOk cfg3 "0.0.5" [] "/tmp/w" "/start"
    (by decide) (by decide)

/-- C8: processing a release always ends with the working directory
equal to the recorded start directory, whether the release was skipped
or its block ended in success, a missing-sdist error, a download
failure, an extraction failure, an ambiguous-archive error, or a build
failure. -/
theorem c8_cwd_restored (opts : Options) (blk : BlockEnv)
    (cfg : VersionConfig) (rv : String) (files : List FileInfo)
    (tmpdir start_dir : String) :
    (processRelease opts blk cfg rv files tmpdir start_dir).2 = start_dir := by
  unfold processRelease releaseBlock
  split
  · rfl
  · dsimp only
    split
    · rfl
    · rfl

/-- C10: in the build loop, a builder invocation that raises SystemExit
with code 0 is suppressed and the loop continues with the remaining
targets of the release, while a SystemExit with any nonzero code stops
the loop at that target and propagates the code. -/
theorem c10_system_exit (build : String → BuildOutcome) (t : String)
    (ts : List String) :
    (build t = BuildOutcome.exits 0 →
      runBuildLoop build (t :: ts)
        = (t :: (runBuildLoop build ts).1, (runBuildLoop build ts).2))
    ∧ (∀ c : Int, c ≠ 0 → build t = BuildOutcome.exits c →
      runBuildLoop build (t :: ts) = ([t], some c)) := by
  constructor
  · intro h
    rw [runBuildLoop, h]
    simp
  · intro c hc h
    rw [runBuildLoop, h]
    simp [hc]

/-- Witness for C10: a builder that exits 0 on cp27 and 3 on cp35 is
invoked on both targets and the run aborts with code 3. -/
theorem c10_witness :
    runBuildLoop buildW ["cp27", "cp35"] = (["cp27", "cp35"], some 3) := by
  have h1 := (c10_system_exit buildW "cp27" ["cp35"]).1 (by decide)
  have h2 := (c10_system_exit buildW "cp35" []).2 3 (by decide) (by decide)
  rw [h1, h2]

/-- C9: when the force-rebuild flag is unset and the missing computation
comes out empty (all required runtime tags already published), the
release is skipped with the all-wheels-present outcome, whatever the
file list holds; in particular a file list with no sdist record causes
no error, since the skip happens before the sdist record is
dereferenced. -/
theorem c9_all_present_skip (opts : Options) (blk : BlockEnv)
    (cfg : VersionConfig) (rv : String) (files : List FileInfo)
    (tmpdir start_dir : String)
    (hflag : opts.ignore_existing = false)
    (hmin : versionLtB (parseLoose rv) (min_package_version cfg) = false)
    (hcover : missing (requiredList cfg rv)
        (scanFiles opts.python_tags opts.platform_tag files).1 = []) :
    (processRelease opts blk cfg rv files tmpdir start_dir).1
      = ReleaseResult.skippedAllPresent := by
  unfold processRelease
  rw [hmin]
  simp [hflag, hcover]

/-- Witness for C9 at a concrete input whose file list has zero sdist
records: the cp27 wheel is published, so the release is skipped cleanly. -/
theorem c9_witness :
    (processRelease opts0 blkOk cfg1 "0.1" [wheelCp27] "/tmp/w" "/start").1
      = ReleaseResult.skippedAllPresent :=
  c9_all_present_skip opts0 blkOk cfg1 "0.1" [wheelCp27] "/tmp/w" "/start"
    rfl (by decide) (by decide)

/-- C1 counterexample: a release whose file list holds two
source-distribution records is NOT met with a fatal configuration
error: processing proceeds normally (the builder is invoked for the
missing target) and the scan has silently kept the second record, which
differs from the first. -/
theorem c1_counterexample :
    (processRelease opts0 blkOk cfg1 "0.3" [sdistA, sdistB] "/tmp/w" "/start").1
        = ReleaseResult.built ["cp27"]
    ∧ (scanFiles opts0.python_tags opts0.platform_tag [sdistA, sdistB]).2 = some sdistB
    ∧ sdistB ≠ sdistA := by
  decide

/-- C1 (amended): the scan performs no count validation on
source-distribution records: it records the last sdist record of the
file list (so two or more records are silently accepted and the last
one used), and only a release that proceeds to its processing block
with zero sdist records fails, with the missing-sdist dereference
error, not a configuration check. -/
theorem c1_sdist_last_record (opts : Options) (blk : BlockEnv)
    (cfg : VersionConfig) (rv : String) (files : List FileInfo)
    (tmpdir start_dir : String) :
    ((scanFiles opts.python_tags opts.platform_tag files).2
        = (files.filter (fun fi => decide (fi.packagetype = "sdist"))).getLast?)
    ∧ ((scanFiles opts.python_tags opts.platform_tag files).2 = none →
        versionLtB (parseLoose rv) (min_package_version cfg) = false →
        (missing (requiredList cfg rv)
            (scanFiles opts.python_tags opts.platform_tag files).1 ≠ []
          ∨ opts.ignore_existing = true) →
        (processRelease opts blk cfg rv files tmpdir start_dir).1
          = ReleaseResult.error StepError.noSdist) := by
  constructor
  · unfold scanFiles
    rw [scanStep_foldl_snd]
    cases (files.filter (fun fi => decide (fi.packagetype = "sdist"))).getLast? <;> rfl
  · intro hnone hmin hproceed
    have hcond : ((missing (requiredList cfg rv)
        (scanFiles opts.python_tags opts.platform_tag files).1).isEmpty
          && !opts.ignore_existing) = false := by
      rcases hproceed with hne | hig
      · have hie : (missing (requiredList cfg rv)
            (scanFiles opts.python_tags opts.platform_tag files).1).isEmpty = false := by
          cases hM : missing (requiredList cfg rv)
              (scanFiles opts.python_tags opts.platform_tag files).1 with
          | nil => exact absurd hM hne
          | cons a l => rfl
        rw [hie]
        rfl
      · rw [hig]
        simp
    simp only [processRelease, hmin, Bool.false_eq_true, if_false]
    rw [hcond]
    simp [releaseBlock, releaseBlockBody, hnone]

/-- Witness for C1 (amended) at a concrete input: a release in range
with no published wheels and an empty file list (hence zero sdist
records) ends in the missing-sdist error, and the scan of that file
list records no sdist. -/
theorem c1_witness :
    (scanFiles opts0.python_tags opts0.platform_tag ([] : List FileInfo)).2
        = (([] : List FileInfo).filter
            (fun fi => decide (fi.packagetype = "sdist"))).getLast?
    ∧ (processRelease opts0 blkOk cfg1 "0.3" [] "/tmp/w" "/start").1
        = ReleaseResult.error StepError.noSdist :=
  ⟨(c1_sdist_last_record opts0 blkOk cfg1 "0.3" [] "/tmp/w" "/start").1,
   (c1_sdist_last_record opts0 blkOk cfg1 "0.3" [] "/tmp/w" "/start").2
     (by decide) (by decide) (Or.inl (by decide))⟩

/-- C4: for a release at or above the minimum configured key, the
resolver returns the target list of a configuration entry that is a
greatest key at or below the release version; when some configured key
parses exactly to the release version, that entry's targets are
returned; and the underlying comparison is full version ordering (0.9
below 0.10 below 1.0), not the lexical string order (under which 0.10
sorts below 0.9). -/
theorem c4_floor_lookup (cfg : VersionConfig) (rv : String)
    (hcfg : cfg ≠ [])
    (hnd : (cfg.map (fun p => parseLoose p.1)).Nodup)
    (hmin : versionLtB (parseLoose rv) (min_package_version cfg) = false) :
    (∃ p, p ∈ cfg ∧ requiredTargets cfg rv = ResolveResult.targets p.2
        ∧ versionLtB (parseLoose rv) (parseLoose p.1) = false
        ∧ ∀ q ∈ cfg, versionLtB (parseLoose rv) (parseLoose q.1) = false →
            versionLtB (parseLoose p.1) (parseLoose q.1) = false)
    ∧ (∀ q ∈ cfg, parseLoose q.1 = parseLoose rv →
        requiredTargets cfg rv = ResolveResult.targets q.2)
    ∧ (versionLtB (parseLoose "0.9") (parseLoose "0.10") = true
        ∧ versionLtB (parseLoose "0.10") (parseLoose "1.0") = true
        ∧ strLtB "0.10" "0.9" = true) := by
  have hne : eligible cfg (parseLoose rv) ≠ [] := by
    obtain ⟨p0, hp0, hpeq⟩ := min_package_version_mem cfg hcfg
    have hp0el : p0 ∈ eligible cfg (parseLoose rv) := by
      refine List.mem_filter.mpr ⟨hp0, ?_⟩
      unfold versionLeB
      rw [← hpeq, hmin]
      rfl
    intro h
    rw [eligible] at h
    rw [eligible, h] at hp0el
    simp at hp0el
  rcases heel : eligible cfg (parseLoose rv) with _ | ⟨e, es⟩
  · exact absurd heel hne
  · have hmax : maxLe cfg (parseLoose rv) = some (pyMaxBy pairLt e es) := by
      unfold maxLe
      rw [heel]
    set m := pyMaxBy pairLt e es with hm
    have hm_el : m ∈ eligible cfg (parseLoose rv) := by
      rw [heel]
      rcases pyMaxBy_mem pairLt es e with h | h
      · rw [hm, h]
        exact List.mem_cons_self e es
      · exact List.mem_cons_of_mem e (hm ▸ h)
    have hm_elf : m ∈ cfg.filter (fun p => versionLeB (parseLoose p.1) (parseLoose rv)) := by
      rw [eligible] at hm_el
      exact hm_el
    have hm_cfg : m ∈ cfg := List.filter_subset' cfg hm_elf
    have hm_le : versionLtB (parseLoose rv) (parseLoose m.1) = false := by
      have h := List.of_mem_filter hm_elf
      simpa [versionLeB] using h
    have hreq : requiredTargets cfg rv = ResolveResult.targets m.2 := by
      unfold requiredTargets
      rw [hmin]
      simp only [Bool.false_eq_true, if_false]
      rw [hmax]
    have hgreatest : ∀ q ∈ cfg, versionLtB (parseLoose rv) (parseLoose q.1) = false →
        versionLtB (parseLoose m.1) (parseLoose q.1) = false := by
      intro q hq hqle
      have hq_el : q ∈ eligible cfg (parseLoose rv) := by
        rw [eligible]
        exact List.mem_filter.mpr ⟨hq, by simp [versionLeB, hqle]⟩
      rw [heel] at hq_el
      have hmem : q = e ∨ q ∈ es := List.mem_cons.mp hq_el
      exact pyMaxBy_not_lt pairLt pairLt_irrefl pairLt_trans pairLt_subst es e q hmem
    refine ⟨⟨m, hm_cfg, hreq, hm_le, hgreatest⟩, ?_, by decide, by decide, by decide⟩
    intro q hq hqeq
    have hq_le : versionLtB (parseLoose rv) (parseLoose q.1) = false := by
      rw [hqeq]
      exact versionLt_irrefl _
    have h1 : versionLtB (parseLoose m.1) (parseLoose q.1) = false := hgreatest q hq hq_le
    have h2 : versionLtB (parseLoose q.1) (parseLoose m.1) = false := by
      rw [hqeq]
      exact hm_le
    have hkeys : parseLoose m.1 = parseLoose q.1 := versionLt_connex h1 h2
    have hmq : m = q := List.inj_on_of_nodup_map hnd hm_cfg hq hkeys
    rw [hreq, hmq]

/-- Witness for C4: the exact-key edge case of the scenario
configuration, discharging every hypothesis at release 0.2. -/
theorem c4_witness :
    requiredTargets cfg3 "0.2" = ResolveResult.targets ["cp27", "cp35", "cp36"] :=
  (c4_floor_lookup cfg3 "0.2" (by decide) (by decide) (by decide)).2.1
    ("0.2", ["cp27", "cp35", "cp36"]) (by decide) (by decide)

/-- C5: the missing computation yields an ascending, duplicate-free
list whose members are exactly the required runtime tags that are not
among the published platform-matching runtime tags, and it is empty
exactly when every required tag is published. -/
theorem c5_missing_diff (required_pythons wheels_pythons : List String) :
    List.Sorted (fun a b => strLeB a b = true) (missing required_pythons wheels_pythons)
    ∧ (missing required_pythons wheels_pythons).Nodup
    ∧ (∀ t, t ∈ missing required_pythons wheels_pythons
        ↔ t ∈ required_pythons ∧ t ∉ wheels_pythons)
    ∧ (missing required_pythons wheels_pythons = []
        ↔ ∀ t ∈ required_pythons, t ∈ wheels_pythons) := by
  haveI instTot : IsTotal String (fun a b => strLeB a b = true) := by
    constructor
    intro a b
    show strLeB a b = true ∨ strLeB b a = true
    unfold strLeB
    cases h : strLtB b a with
    | false => exact Or.inl rfl
    | true =>
      right
      have hab : strLtB a b = false := by
        cases h2 : strLtB a b with
        | false => rfl
        | true =>
          have h3 := strLt_trans h2 h
          rw [strLt_irrefl] at h3
          simp at h3
      rw [hab]
      rfl
  haveI instTrans : IsTrans String (fun a b => strLeB a b = true) := by
    constructor
    intro a b c hab hbc
    show strLeB a c = true
    unfold strLeB at hab hbc ⊢
    simp only [Bool.not_eq_true'] at hab hbc ⊢
    cases h : strLtB c a with
    | false => rfl
    | true =>
      cases h2 : strLtB a b with
      | false =>
        have heq : a = b := strLt_connex h2 hab
        rw [heq] at h
        rw [h] at hbc
        simp at hbc
      | true =>
        have h3 := strLt_trans h h2
        rw [hbc] at h3
        simp at h3
  have hperm := List.perm_insertionSort (fun a b => strLeB a b = true)
      ((required_pythons.filter (fun t => decide (t ∉ wheels_pythons))).dedup)
  have hmem : ∀ t, t ∈ missing required_pythons wheels_pythons
      ↔ t ∈ required_pythons ∧ t ∉ wheels_pythons := by
    intro t
    unfold missing
    rw [hperm.mem_iff, List.mem_dedup, List.mem_filter]
    simp
  refine ⟨?_, ?_, hmem, ?_⟩
  · exact List.sorted_insertionSort _ _
  · unfold missing
    exact hperm.nodup_iff.mpr (List.nodup_dedup _)
  · constructor
    · intro hnil t ht
      by_cases hw : t ∈ wheels_pythons
      · exact hw
      · have : t ∈ missing required_pythons wheels_pythons := (hmem t).mpr ⟨ht, hw⟩
        rw [hnil] at this
        exact absurd this (List.not_mem_nil t)
    · intro hall
      refine List.eq_nil_iff_forall_not_mem.mpr ?_
      intro t ht
      have h := (hmem t).mp ht
      exact h.2 (hall t h.1)

/-- C7 counterexample: with an unset test command, the configuration
the builder sees still depends on the previous build's environment: a
clean run hands over no test command while a run after an invocation
that had set one hands over that stale value, although the current
configurations of the two runs agree. -/
theorem c7_counterexample :
    opts0.test_command = none
    ∧ (buildEnv opts0 mn0 "cp27" env0) "CIBW_TEST_COMMAND" = none
    ∧ (buildEnv opts0 mn0 "cp27" envLeak) "CIBW_TEST_COMMAND" = some "pytest" := by
  refine ⟨rfl, rfl, rfl⟩

/-- C7 (amended): before each build invocation the keys CIBW_PLATFORM,
CIBW_OUTPUT_DIR, CIBW_BUILD_VERBOSITY and CIBW_BUILD are overwritten,
so their handed-over values do not depend on the prior environment; but
CIBW_TEST_COMMAND and CIBW_TEST_REQUIRES are only written when the
corresponding option is truthy, and CIBW_BEFORE_BUILD only when
pin_numpy is set or before_build is truthy, so with those options unset
each of the three keys hands the prior environment's value through
unchanged. -/
theorem c7_env_overwrite (opts : Options) (min_numpy : String → String → String)
    (python_tag : String) (e e' : Env) :
    (buildEnv opts min_numpy python_tag e) "CIBW_PLATFORM"
        = (buildEnv opts min_numpy python_tag e') "CIBW_PLATFORM"
    ∧ (buildEnv opts min_numpy python_tag e) "CIBW_OUTPUT_DIR"
        = (buildEnv opts min_numpy python_tag e') "CIBW_OUTPUT_DIR"
    ∧ (buildEnv opts min_numpy python_tag e) "CIBW_BUILD_VERBOSITY"
        = (buildEnv opts min_numpy python_tag e') "CIBW_BUILD_VERBOSITY"
    ∧ (buildEnv opts min_numpy python_tag e) "CIBW_BUILD"
        = (buildEnv opts min_numpy python_tag e') "CIBW_BUILD"
    ∧ (opts.test_command = none →
        (buildEnv opts min_numpy python_tag e) "CIBW_TEST_COMMAND"
          = e "CIBW_TEST_COMMAND")
    ∧ (opts.test_requires = none →
        (buildEnv opts min_numpy python_tag e) "CIBW_TEST_REQUIRES"
          = e "CIBW_TEST_REQUIRES")
    ∧ (opts.pin_numpy = false → opts.before_build = none →
        (buildEnv opts min_numpy python_tag e) "CIBW_BEFORE_BUILD"
          = e "CIBW_BEFORE_BUILD") := by
  cases hpn : opts.pin_numpy <;>
    rcases hbb : opts.before_build with _ | s <;>
      rcases htc : opts.test_command with _ | s1 <;>
        rcases htr2 : opts.test_requires with _ | s2 <;>
          simp [buildEnv, setupEnvTarget, setupEnvBase, setEnv, hpn, hbb, htc, htr2] <;>
            split_ifs <;>
              simp [setEnv]

/-- Witness for C7 (amended) at concrete environments: an environment
polluted with a stale test command against a clean one, with every
conditional option unset. -/
theorem c7_witness :
    (buildEnv opts0 mn0 "cp27" envLeak) "CIBW_PLATFORM"
        = (buildEnv opts0 mn0 "cp27" env0) "CIBW_PLATFORM"
    ∧ (buildEnv opts0 mn0 "cp27" envLeak) "CIBW_OUTPUT_DIR"
        = (buildEnv opts0 mn0 "cp27" env0) "CIBW_OUTPUT_DIR"
    ∧ (buildEnv opts0 mn0 "cp27" envLeak) "CIBW_BUILD_VERBOSITY"
        = (buildEnv opts0 mn0 "cp27" env0) "CIBW_BUILD_VERBOSITY"
    ∧ (buildEnv opts0 mn0 "cp27" envLeak) "CIBW_BUILD"
        = (buildEnv opts0 mn0 "cp27" env0) "CIBW_BUILD"
    ∧ (buildEnv opts0 mn0 "cp27" envLeak) "CIBW_TEST_COMMAND"
        = envLeak "CIBW_TEST_COMMAND"
    ∧ (buildEnv opts0 mn0 "cp27" envLeak) "CIBW_TEST_REQUIRES"
        = envLeak "CIBW_TEST_REQUIRES"
    ∧ (buildEnv opts0 mn0 "cp27" envLeak) "CIBW_BEFORE_BUILD"
        = envLeak "CIBW_BEFORE_BUILD" := by
  have h := c7_env_overwrite opts0 mn0 "cp27" envLeak env0
  exact ⟨h.1, h.2.1, h.2.2.1, h.2.2.2.1, h.2.2.2.2.1 rfl,
    h.2.2.2.2.2.1 rfl, h.2.2.2.2.2.2 rfl rfl⟩

end Autowheel
